import Mathlib

/-!
Verification of the aggregation and statistical-inference engine of the
repository (scripts/analyze_results.py and scripts/deep_analysis.py).

Counts are embedded as `ℤ` (Python integers from the JSON records) and the
floating-point arithmetic of the scripts as exact arithmetic: `ℚ` for the
purely rational computations (rates, chi-square, averages) and `ℝ` for the
Wilson confidence interval, whose formula uses a square root.
-/

namespace AhoAi

/-- Significance labels produced by `chi_square_test` in
scripts/deep_analysis.py.  `notApplicable` is the string `"N/A"` returned
when `total == 0`; `noDecisiveGames` is `"N/A (no decisive games)"`. -/
inductive Significance where
  | notApplicable
  | noDecisiveGames
  | notSignificant
  | significant
  | verySignificant
  | extremelySignificant
deriving DecidableEq

/-- Embedding of `chi_square_test` (scripts/deep_analysis.py lines 41-68):
`total = p1_wins + p2_wins + draws`; if zero, return `(0, "N/A")`;
`expected_wins = (p1_wins + p2_wins) / 2`; if zero, return
`(0, "N/A (no decisive games)")`; otherwise the chi-square statistic with
the fixed critical values 3.841 / 6.635 / 10.828. -/
def chi_square_test (p1_wins p2_wins draws : ℤ) : ℚ × Significance :=
  let total := p1_wins + p2_wins + draws
  if total = 0 then (0, .notApplicable)
  else
    let expected_wins : ℚ := ((p1_wins : ℚ) + (p2_wins : ℚ)) / 2
    if expected_wins = 0 then (0, .noDecisiveGames)
    else
      let chi_square := ((p1_wins : ℚ) - expected_wins) ^ 2 / expected_wins +
                        ((p2_wins : ℚ) - expected_wins) ^ 2 / expected_wins
      if chi_square < 3.841 then (chi_square, .notSignificant)
      else if chi_square < 6.635 then (chi_square, .significant)
      else if chi_square < 10.828 then (chi_square, .verySignificant)
      else (chi_square, .extremelySignificant)

/-- The chi-square statistic as the spec words it:
`(p1_wins − e)²/e + (p2_wins − e)²/e` with `e = (p1_wins + p2_wins)/2`. -/
def chi_square_spec (p1_wins p2_wins : ℤ) : ℚ :=
  let e : ℚ := ((p1_wins : ℚ) + (p2_wins : ℚ)) / 2
  ((p1_wins : ℚ) - e) ^ 2 / e + ((p2_wins : ℚ) - e) ^ 2 / e

/-- The significance thresholds as the spec words them: strict comparisons
at 3.841, 6.635 and 10.828. -/
def significance_spec (chi : ℚ) : Significance :=
  if chi < 3.841 then .notSignificant
  else if chi < 6.635 then .significant
  else if chi < 10.828 then .verySignificant
  else .extremelySignificant

/-- One self-play session summary record, as read from a
`selfplay_results_*.json` file (fields used by the aggregation in
scripts/analyze_results.py; the configuration-key strings and file names
do not enter any computation and are omitted). -/
structure SessionRecord where
  total_games : ℤ
  p1_wins : ℤ
  p2_wins : ℤ
  draws : ℤ
  avg_moves : ℚ
  avg_time_ms : ℚ
deriving DecidableEq

/-- The running accumulation for one game-type key, as built by
`load_all_results` in scripts/analyze_results.py (the `files` list of
contributing source names is bookkeeping that enters no computation and is
omitted). -/
structure AggregatedGroup where
  total_games : ℤ
  p1_wins : ℤ
  p2_wins : ℤ
  draws : ℤ
  total_moves : ℚ
  total_time_ms : ℚ
deriving DecidableEq

/-- The `defaultdict` initial value of a group in `load_all_results`:
all accumulators zero. -/
def emptyGroup : AggregatedGroup :=
  { total_games := 0, p1_wins := 0, p2_wins := 0, draws := 0
    total_moves := 0, total_time_ms := 0 }

/-- One iteration of the aggregation loop in `load_all_results`
(scripts/analyze_results.py lines 90-97): every field of the record is
added unconditionally; move and time totals accumulate
`avg * total_games` products. -/
def ingest (group : AggregatedGroup) (data : SessionRecord) : AggregatedGroup :=
  { total_games := group.total_games + data.total_games
    p1_wins := group.p1_wins + data.p1_wins
    p2_wins := group.p2_wins + data.p2_wins
    draws := group.draws + data.draws
    total_moves := group.total_moves + data.avg_moves * (data.total_games : ℚ)
    total_time_ms := group.total_time_ms + data.avg_time_ms * (data.total_games : ℚ) }

/-- The aggregation performed by `load_all_results`
(scripts/analyze_results.py lines 83-102) for the records sharing one
configuration key: a left fold of `ingest` starting from the empty group. -/
def load_all_results (records : List SessionRecord) : AggregatedGroup :=
  records.foldl ingest emptyGroup

/-- Balance labels of the chained conditional in
`display_game_type_statistics` (scripts/analyze_results.py lines 194-206). -/
inductive BalanceLabel where
  | excellent
  | good
  | slightImbalance
  | significantImbalance
deriving DecidableEq

/-- Sample-size labels of the chained conditional in
`display_game_type_statistics` (scripts/analyze_results.py lines 224-235). -/
inductive SampleSizeLabel where
  | verySmall
  | small
  | moderate
  | large
deriving DecidableEq

/-- The balance-status conditional of `display_game_type_statistics`
(lines 194-206): strict `<` at 5, 10 and 20 on the absolute win-rate
difference. -/
def balance_status (win_diff : ℚ) : BalanceLabel :=
  if win_diff < 5 then .excellent
  else if win_diff < 10 then .good
  else if win_diff < 20 then .slightImbalance
  else .significantImbalance

/-- The sample-size conditional of `display_game_type_statistics`
(lines 224-235): strict `<` at 10, 50 and 100 on the total game count. -/
def sample_size_status (total : ℤ) : SampleSizeLabel :=
  if total < 10 then .verySmall
  else if total < 50 then .small
  else if total < 100 then .moderate
  else .large

/-- The numeric quantities and categorical labels computed and printed by
`display_game_type_statistics` for one aggregated group. -/
structure GameTypeStats where
  avg_moves : ℚ
  avg_time_s : ℚ
  p1_rate : ℚ
  p2_rate : ℚ
  draw_rate : ℚ
  win_diff : ℚ
  balance : BalanceLabel
  sample : SampleSizeLabel
deriving DecidableEq

/-- Embedding of `display_game_type_statistics`
(scripts/analyze_results.py lines 152-242).  When `total == 0` the
function prints "No games played" and returns before computing anything:
embedded as `none`.  Otherwise it computes the averages, the guarded win
rates, the absolute rate difference and the two categorical labels. -/
def display_game_type_statistics (data : AggregatedGroup) : Option GameTypeStats :=
  let total := data.total_games
  if total = 0 then none
  else
    let avg_moves := data.total_moves / (total : ℚ)
    let avg_time_s := data.total_time_ms / (total : ℚ) / 1000
    let p1_rate := if 0 < total then (data.p1_wins : ℚ) / (total : ℚ) * 100 else 0
    let p2_rate := if 0 < total then (data.p2_wins : ℚ) / (total : ℚ) * 100 else 0
    let draw_rate := if 0 < total then (data.draws : ℚ) / (total : ℚ) * 100 else 0
    let win_diff := |p1_rate - p2_rate|
    some { avg_moves := avg_moves
           avg_time_s := avg_time_s
           p1_rate := p1_rate
           p2_rate := p2_rate
           draw_rate := draw_rate
           win_diff := win_diff
           balance := balance_status win_diff
           sample := sample_size_status total }

/-- A malformed session record: its counts sum to `3 + 3 + 3 = 9`, which is
not its `total_games` field `5`. -/
def badRecord : SessionRecord :=
  { total_games := 5, p1_wins := 3, p2_wins := 3, draws := 3
    avg_moves := 1, avg_time_ms := 1 }

/-- The z value selected by `calculate_confidence_interval`
(scripts/deep_analysis.py line 32):
`z = 1.96 if confidence == 0.95 else 2.576`. -/
noncomputable def wilson_z (confidence : ℝ) : ℝ :=
  if confidence = 0.95 then 1.96 else 2.576

/-- The `center` local of `calculate_confidence_interval`
(scripts/deep_analysis.py lines 34-35), with the `denominator` local
inlined: `(p + z²/(2·total)) / (1 + z²/total)`. -/
noncomputable def wilsonCenter (z p total : ℝ) : ℝ :=
  (p + z ^ 2 / (2 * total)) / (1 + z ^ 2 / total)

/-- The `margin` local of `calculate_confidence_interval`
(scripts/deep_analysis.py line 36), with the `denominator` local inlined:
`z·√(p(1−p)/total + z²/(4·total²)) / (1 + z²/total)`. -/
noncomputable def wilsonMargin (z p total : ℝ) : ℝ :=
  z * Real.sqrt (p * (1 - p) / total + z ^ 2 / (4 * total ^ 2)) / (1 + z ^ 2 / total)

/-- Embedding of `calculate_confidence_interval`
(scripts/deep_analysis.py lines 26-38): Wilson score interval for
`wins / total`, returned as percentages, lower bound clamped below by 0
and upper bound clamped above by 1 before scaling by 100; `(0, 0)` when
`total == 0`. -/
noncomputable def calculate_confidence_interval (wins total : ℝ)
    (confidence : ℝ) : ℝ × ℝ :=
  if total = 0 then (0, 0)
  else
    let p := wins / total
    let z := wilson_z confidence
    (max 0 (wilsonCenter z p total - wilsonMargin z p total) * 100,
     min 1 (wilsonCenter z p total + wilsonMargin z p total) * 100)

/-- Seats that the bias-direction analysis of `analyze_board_comparison`
can report (scripts/deep_analysis.py lines 125-126): there are only two. -/
inductive FavoredSeat where
  | player1
  | player2
deriving DecidableEq

/-- Embedding of the favored-seat expression of `analyze_board_comparison`
(scripts/deep_analysis.py line 125):
`"Player 1" if data['p1_win_rate'] > data['p2_win_rate'] else "Player 2"`. -/
def favored_seat (p1_win_rate p2_win_rate : ℚ) : FavoredSeat :=
  if p1_win_rate > p2_win_rate then .player1 else .player2

/-! ## Aggregation lemmas -/

theorem foldl_ingest_fields (rs : List SessionRecord) (g : AggregatedGroup) :
    (rs.foldl ingest g).total_games = g.total_games + (rs.map SessionRecord.total_games).sum ∧
    (rs.foldl ingest g).p1_wins = g.p1_wins + (rs.map SessionRecord.p1_wins).sum ∧
    (rs.foldl ingest g).p2_wins = g.p2_wins + (rs.map SessionRecord.p2_wins).sum ∧
    (rs.foldl ingest g).draws = g.draws + (rs.map SessionRecord.draws).sum ∧
    (rs.foldl ingest g).total_moves
      = g.total_moves + (rs.map (fun r => r.avg_moves * (r.total_games : ℚ))).sum ∧
    (rs.foldl ingest g).total_time_ms
      = g.total_time_ms + (rs.map (fun r => r.avg_time_ms * (r.total_games : ℚ))).sum := by
  induction rs generalizing g with
  | nil => simp
  | cons r rs ih =>
    obtain ⟨h1, h2, h3, h4, h5, h6⟩ := ih (ingest g r)
    simp only [List.foldl_cons, List.map_cons, List.sum_cons]
    exact ⟨by rw [h1]; simp [ingest]; ring, by rw [h2]; simp [ingest]; ring,
           by rw [h3]; simp [ingest]; ring, by rw [h4]; simp [ingest]; ring,
           by rw [h5]; simp [ingest]; ring, by rw [h6]; simp [ingest]; ring⟩

theorem load_total_games (rs : List SessionRecord) :
    (load_all_results rs).total_games = (rs.map SessionRecord.total_games).sum := by
  simpa [load_all_results, emptyGroup] using (foldl_ingest_fields rs emptyGroup).1

theorem load_p1_wins (rs : List SessionRecord) :
    (load_all_results rs).p1_wins = (rs.map SessionRecord.p1_wins).sum := by
  simpa [load_all_results, emptyGroup] using (foldl_ingest_fields rs emptyGroup).2.1

theorem load_p2_wins (rs : List SessionRecord) :
    (load_all_results rs).p2_wins = (rs.map SessionRecord.p2_wins).sum := by
  simpa [load_all_results, emptyGroup] using (foldl_ingest_fields rs emptyGroup).2.2.1

theorem load_draws (rs : List SessionRecord) :
    (load_all_results rs).draws = (rs.map SessionRecord.draws).sum := by
  simpa [load_all_results, emptyGroup] using (foldl_ingest_fields rs emptyGroup).2.2.2.1

theorem load_total_moves (rs : List SessionRecord) :
    (load_all_results rs).total_moves
      = (rs.map (fun r => r.avg_moves * (r.total_games : ℚ))).sum := by
  simpa [load_all_results, emptyGroup] using (foldl_ingest_fields rs emptyGroup).2.2.2.2.1

theorem load_total_time_ms (rs : List SessionRecord) :
    (load_all_results rs).total_time_ms
      = (rs.map (fun r => r.avg_time_ms * (r.total_games : ℚ))).sum := by
  simpa [load_all_results, emptyGroup] using (foldl_ingest_fields rs emptyGroup).2.2.2.2.2

theorem display_of_ne_zero (g : AggregatedGroup) (h : g.total_games ≠ 0) :
    display_game_type_statistics g = some
      { avg_moves := g.total_moves / (g.total_games : ℚ)
        avg_time_s := g.total_time_ms / (g.total_games : ℚ) / 1000
        p1_rate := if 0 < g.total_games then (g.p1_wins : ℚ) / (g.total_games : ℚ) * 100 else 0
        p2_rate := if 0 < g.total_games then (g.p2_wins : ℚ) / (g.total_games : ℚ) * 100 else 0
        draw_rate := if 0 < g.total_games then (g.draws : ℚ) / (g.total_games : ℚ) * 100 else 0
        win_diff := |(if 0 < g.total_games then (g.p1_wins : ℚ) / (g.total_games : ℚ) * 100 else 0)
          - (if 0 < g.total_games then (g.p2_wins : ℚ) / (g.total_games : ℚ) * 100 else 0)|
        balance := balance_status
          |(if 0 < g.total_games then (g.p1_wins : ℚ) / (g.total_games : ℚ) * 100 else 0)
            - (if 0 < g.total_games then (g.p2_wins : ℚ) / (g.total_games : ℚ) * 100 else 0)|
        sample := sample_size_status g.total_games } := by
  simp only [display_game_type_statistics, if_neg h]

/-! ## Claims C1 - C6 -/

/-- Claim C1: for nonnegative counts with at least one decisive game, the
chi-square balance statistic of `chi_square_test` equals
`(p1 − e)²/e + (p2 − e)²/e` with `e = (p1 + p2)/2`, and its significance
label is given by the exact strict thresholds 3.841 / 6.635 / 10.828. -/
theorem chi_square_formula_and_thresholds (p1 p2 d : ℤ)
    (h1 : 0 ≤ p1) (h2 : 0 ≤ p2) (hd : 0 ≤ d) (hpos : 0 < p1 + p2) :
    chi_square_test p1 p2 d
      = (chi_square_spec p1 p2, significance_spec (chi_square_spec p1 p2)) := by
  have htot : p1 + p2 + d ≠ 0 := by omega
  have hsum : (0 : ℚ) < (p1 : ℚ) + (p2 : ℚ) := by exact_mod_cast hpos
  have hexp : ((p1 : ℚ) + (p2 : ℚ)) / 2 ≠ 0 := by positivity
  simp only [chi_square_test, chi_square_spec, significance_spec, if_neg htot, if_neg hexp]
  split_ifs <;> rfl

/-- Witness for C1 at the spec's boundary example:
`p1=30, p2=20, draws=0` yields statistic `2` and the not-significant label. -/
theorem chi_square_formula_witness :
    chi_square_test 30 20 0 = (2, Significance.notSignificant) := by
  rw [chi_square_formula_and_thresholds 30 20 0 (by norm_num) (by norm_num) le_rfl (by norm_num)]
  norm_num [chi_square_spec, significance_spec]

/-- Claim C2: the aggregated average move count and average time of a group
are the game-count-weighted means `(Σ avgᵢ·nᵢ) / (Σ nᵢ)` of the per-session
averages, not their naive means. -/
theorem weighted_average_aggregation (records : List SessionRecord)
    (h : 0 < (load_all_results records).total_games) :
    ∃ s, display_game_type_statistics (load_all_results records) = some s ∧
      s.avg_moves = (records.map (fun r => r.avg_moves * (r.total_games : ℚ))).sum /
        (((records.map SessionRecord.total_games).sum : ℤ) : ℚ) ∧
      s.avg_time_s = (records.map (fun r => r.avg_time_ms * (r.total_games : ℚ))).sum /
        (((records.map SessionRecord.total_games).sum : ℤ) : ℚ) / 1000 := by
  have hne : (load_all_results records).total_games ≠ 0 := ne_of_gt h
  refine ⟨_, display_of_ne_zero _ hne, ?_, ?_⟩
  · show (load_all_results records).total_moves / ((load_all_results records).total_games : ℚ) = _
    rw [load_total_moves, load_total_games]
  · show (load_all_results records).total_time_ms
        / ((load_all_results records).total_games : ℚ) / 1000 = _
    rw [load_total_time_ms, load_total_games]

/-- Witness for C2 at the spec's example: sessions of 10 games with average
20 moves and 90 games with average 100 moves aggregate to average 92. -/
theorem weighted_average_witness :
    ∃ s, display_game_type_statistics (load_all_results
        [{ total_games := 10, p1_wins := 5, p2_wins := 5, draws := 0,
           avg_moves := 20, avg_time_ms := 20 },
         { total_games := 90, p1_wins := 45, p2_wins := 45, draws := 0,
           avg_moves := 100, avg_time_ms := 100 }]) = some s ∧
      s.avg_moves = 92 := by
  obtain ⟨s, hs, hm, ht⟩ := weighted_average_aggregation
    [{ total_games := 10, p1_wins := 5, p2_wins := 5, draws := 0,
       avg_moves := 20, avg_time_ms := 20 },
     { total_games := 90, p1_wins := 45, p2_wins := 45, draws := 0,
       avg_moves := 100, avg_time_ms := 100 }] (by decide)
  refine ⟨s, hs, ?_⟩
  rw [hm]
  simp only [List.map_cons, List.map_nil, List.sum_cons, List.sum_nil]
  norm_num

/-- Claim C3 counterexample: the malformed record `badRecord` (counts sum
to 9, total_games is 5) is not rejected or skipped by the aggregation —
its counts enter the aggregate. -/
theorem malformed_record_not_skipped :
    badRecord.p1_wins + badRecord.p2_wins + badRecord.draws ≠ badRecord.total_games ∧
    load_all_results [badRecord] ≠ load_all_results [] ∧
    (load_all_results [badRecord]).p1_wins = 3 ∧
    (load_all_results [badRecord]).total_games = 5 := by decide

/-- Claim C3 (amended): the aggregation performs no integrity validation —
a record whose counts do not sum to its `total_games` is ingested exactly
like any other record; every one of its fields is added to the group. -/
theorem malformed_record_still_ingested (records : List SessionRecord) (r : SessionRecord)
    (hmal : r.p1_wins + r.p2_wins + r.draws ≠ r.total_games) :
    (load_all_results (r :: records)).total_games
      = r.total_games + (load_all_results records).total_games ∧
    (load_all_results (r :: records)).p1_wins
      = r.p1_wins + (load_all_results records).p1_wins ∧
    (load_all_results (r :: records)).p2_wins
      = r.p2_wins + (load_all_results records).p2_wins ∧
    (load_all_results (r :: records)).draws
      = r.draws + (load_all_results records).draws ∧
    (load_all_results (r :: records)).total_moves
      = r.avg_moves * (r.total_games : ℚ) + (load_all_results records).total_moves ∧
    (load_all_results (r :: records)).total_time_ms
      = r.avg_time_ms * (r.total_games : ℚ) + (load_all_results records).total_time_ms := by
  refine ⟨?_, ?_, ?_, ?_, ?_, ?_⟩ <;>
    simp [load_total_games, load_p1_wins, load_p2_wins, load_draws,
      load_total_moves, load_total_time_ms]

/-- Witness for C3 (amended) at the concrete malformed record. -/
theorem malformed_record_ingested_witness :
    (load_all_results [badRecord]).total_games
      = badRecord.total_games + (load_all_results []).total_games ∧
    (load_all_results [badRecord]).p1_wins
      = badRecord.p1_wins + (load_all_results []).p1_wins ∧
    (load_all_results [badRecord]).p2_wins
      = badRecord.p2_wins + (load_all_results []).p2_wins ∧
    (load_all_results [badRecord]).draws
      = badRecord.draws + (load_all_results []).draws ∧
    (load_all_results [badRecord]).total_moves
      = badRecord.avg_moves * (badRecord.total_games : ℚ) + (load_all_results []).total_moves ∧
    (load_all_results [badRecord]).total_time_ms
      = badRecord.avg_time_ms * (badRecord.total_games : ℚ) + (load_all_results []).total_time_ms :=
  malformed_record_still_ingested [] badRecord (by decide)

/-- Claim C4 counterexample: at exactly equal win rates the comparison
reports `player2`, although player 2's rate does not exceed player 1's;
no `balanced` outcome exists in the code. -/
theorem favored_seat_tie_counterexample :
    favored_seat 50 50 = FavoredSeat.player2 ∧ ¬ (50 : ℚ) < (50 : ℚ) := by decide

/-- Claim C4 (amended): the favored seat is `player1` exactly when the p1
win rate strictly exceeds the p2 win rate, and `player2` otherwise —
including exact ties; no `balanced` outcome is ever produced. -/
theorem favored_seat_two_way (p1_rate p2_rate : ℚ) :
    (favored_seat p1_rate p2_rate = FavoredSeat.player1 ↔ p2_rate < p1_rate) ∧
    (favored_seat p1_rate p2_rate = FavoredSeat.player2 ↔ ¬ p2_rate < p1_rate) := by
  unfold favored_seat
  split_ifs with h <;> simp_all

/-- Claim C5 counterexample: with all counts zero, `chi_square_test`
returns the label "N/A" (not the not-significant label), and the display
routine returns early producing no statistics at all. -/
theorem zero_total_counterexample :
    chi_square_test 0 0 0 = (0, Significance.notApplicable) ∧
    Significance.notApplicable ≠ Significance.notSignificant ∧
    display_game_type_statistics emptyGroup = none := by decide

/-- Claim C5 (amended): when the total is zero, `chi_square_test` returns
`(0, "N/A")` without any error, and `display_game_type_statistics` returns
early with no verdict — no rates, no sample-size label and no
significance label are computed. -/
theorem zero_total_degenerate :
    (∀ p1 p2 d : ℤ, p1 + p2 + d = 0 → chi_square_test p1 p2 d = (0, Significance.notApplicable)) ∧
    (∀ g : AggregatedGroup, g.total_games = 0 → display_game_type_statistics g = none) := by
  constructor
  · intro p1 p2 d h
    simp only [chi_square_test, if_pos h]
  · intro g h
    simp only [display_game_type_statistics, if_pos h]

/-- Witness for C5 (amended) at the all-zero inputs. -/
theorem zero_total_degenerate_witness :
    chi_square_test 0 0 0 = (0, Significance.notApplicable) ∧
    display_game_type_statistics emptyGroup = none :=
  ⟨zero_total_degenerate.1 0 0 0 rfl, zero_total_degenerate.2 emptyGroup rfl⟩

/-- Claim C6: the balance label is a strict-threshold classification of the
absolute win-rate difference at 5 / 10 / 20; a difference of exactly 5
classifies as good, and the label stored by the display routine is exactly
this classification of its stored difference. -/
theorem balance_thresholds :
    (∀ dr : ℚ,
      (balance_status dr = BalanceLabel.excellent ↔ dr < 5) ∧
      (balance_status dr = BalanceLabel.good ↔ 5 ≤ dr ∧ dr < 10) ∧
      (balance_status dr = BalanceLabel.slightImbalance ↔ 10 ≤ dr ∧ dr < 20) ∧
      (balance_status dr = BalanceLabel.significantImbalance ↔ 20 ≤ dr)) ∧
    balance_status 5 = BalanceLabel.good ∧
    (∀ g s, display_game_type_statistics g = some s → s.balance = balance_status s.win_diff) := by
  refine ⟨?_, by decide, ?_⟩
  · intro dr
    unfold balance_status
    split_ifs with h1 h2 h3 <;> refine ⟨?_, ?_, ?_, ?_⟩ <;>
      simp_all <;> first | (constructor <;> linarith) | (intros; linarith)
  · intro g s h
    simp only [display_game_type_statistics] at h
    split_ifs at h <;>
      first
        | exact Option.noConfusion h
        | (rw [Option.some_inj] at h; subst h; rfl)

/-! ## Wilson interval lemmas -/

theorem wilson_z_pos (confidence : ℝ) : 0 < wilson_z confidence := by
  unfold wilson_z
  split_ifs <;> norm_num

theorem wilson_denom_pos (z total : ℝ) (ht : 0 < total) : 0 < 1 + z ^ 2 / total := by
  positivity

theorem wilsonMargin_nonneg (z p total : ℝ) (hz : 0 ≤ z) (ht : 0 < total) :
    0 ≤ wilsonMargin z p total := by
  unfold wilsonMargin
  exact div_nonneg (mul_nonneg hz (Real.sqrt_nonneg _)) (wilson_denom_pos z total ht).le

theorem wilsonCenter_nonneg (z p total : ℝ) (hp : 0 ≤ p) (ht : 0 < total) :
    0 ≤ wilsonCenter z p total := by
  unfold wilsonCenter
  have hnum : 0 ≤ p + z ^ 2 / (2 * total) := by positivity
  exact div_nonneg hnum (wilson_denom_pos z total ht).le

theorem wilsonCenter_le_one (z p total : ℝ) (hp : p ≤ 1) (ht : 0 < total) :
    wilsonCenter z p total ≤ 1 := by
  unfold wilsonCenter
  rw [div_le_one (wilson_denom_pos z total ht)]
  have hhalf : z ^ 2 / (2 * total) ≤ z ^ 2 / total := by
    apply div_le_div_of_nonneg_left (sq_nonneg z) ht
    linarith
  linarith

theorem sqrt_term_le (z X bound : ℝ) (hz : 0 ≤ z) (hb : 0 ≤ bound)
    (h : z ^ 2 * X ≤ bound ^ 2) :
    z * Real.sqrt X ≤ bound := by
  have h1 : z * Real.sqrt X = Real.sqrt (z ^ 2 * X) := by
    rw [Real.sqrt_mul (sq_nonneg z), Real.sqrt_sq hz]
  rw [h1]
  calc Real.sqrt (z ^ 2 * X) ≤ Real.sqrt (bound ^ 2) := Real.sqrt_le_sqrt h
    _ = bound := Real.sqrt_sq hb

theorem wilsonMargin_le_center (z p total : ℝ) (hz : 0 < z)
    (hp0 : 0 ≤ p) (ht : 0 < total) :
    wilsonMargin z p total ≤ wilsonCenter z p total := by
  unfold wilsonMargin wilsonCenter
  rw [div_le_div_right (wilson_denom_pos z total ht)]
  apply sqrt_term_le _ _ _ hz.le (by positivity)
  have expand1 : z ^ 2 * (p * (1 - p) / total + z ^ 2 / (4 * total ^ 2))
      = (z ^ 2 * p * (1 - p) * total + z ^ 4 / 4) / total ^ 2 := by
    field_simp
    ring
  have expand2 : (p + z ^ 2 / (2 * total)) ^ 2
      = (p * total + z ^ 2 / 2) ^ 2 / total ^ 2 := by
    field_simp
    ring
  rw [expand1, expand2, div_le_div_right (pow_pos ht 2)]
  nlinarith [mul_nonneg (mul_nonneg (sq_nonneg z) (sq_nonneg p)) ht.le,
    mul_nonneg (sq_nonneg p) (sq_nonneg total)]

theorem wilson_upper_le_one (z p total : ℝ) (hz : 0 < z)
    (hp0 : 0 ≤ p) (hp1 : p ≤ 1) (ht : 0 < total) :
    wilsonCenter z p total + wilsonMargin z p total ≤ 1 := by
  unfold wilsonMargin wilsonCenter
  rw [div_add_div_same, div_le_one (wilson_denom_pos z total ht)]
  have hs : z * Real.sqrt (p * (1 - p) / total + z ^ 2 / (4 * total ^ 2))
      ≤ (1 - p) + z ^ 2 / (2 * total) := by
    apply sqrt_term_le _ _ _ hz.le (by have h1p : 0 ≤ 1 - p := by linarith
                                       positivity)
    have expand1 : z ^ 2 * (p * (1 - p) / total + z ^ 2 / (4 * total ^ 2))
        = (z ^ 2 * p * (1 - p) * total + z ^ 4 / 4) / total ^ 2 := by
      field_simp
      ring
    have expand2 : ((1 - p) + z ^ 2 / (2 * total)) ^ 2
        = ((1 - p) * total + z ^ 2 / 2) ^ 2 / total ^ 2 := by
      field_simp
      ring
    rw [expand1, expand2, div_le_div_right (pow_pos ht 2)]
    nlinarith [mul_nonneg (sq_nonneg (1 - p)) (sq_nonneg total),
      mul_nonneg (mul_nonneg (sq_nonneg (1 - p)) ht.le) (sq_nonneg z)]
  have hsplit : z ^ 2 / (2 * total) + z ^ 2 / (2 * total) = z ^ 2 / total := by
    ring
  linarith

theorem calculate_confidence_interval_of_pos (wins total confidence : ℝ)
    (ht : total ≠ 0) :
    calculate_confidence_interval wins total confidence
      = (max 0 (wilsonCenter (wilson_z confidence) (wins / total) total
            - wilsonMargin (wilson_z confidence) (wins / total) total) * 100,
         min 1 (wilsonCenter (wilson_z confidence) (wins / total) total
            + wilsonMargin (wilson_z confidence) (wins / total) total) * 100) := by
  unfold calculate_confidence_interval
  rw [if_neg ht]

/-! ## Claims C7, C9, C10 -/

/-- Claim C7: with `trials == 0` the Wilson interval is `(0, 0)` for every
success count and every confidence level; no error is raised (the function
is total). -/
theorem wilson_zero_trials (wins confidence : ℝ) :
    calculate_confidence_interval wins 0 confidence = (0, 0) := by
  simp [calculate_confidence_interval]

/-- Claim C9: for `0 ≤ successes ≤ trials` with `trials > 0`, both returned
bounds lie within `[0, 100]`. -/
theorem wilson_bounds_in_range (wins total confidence : ℝ)
    (h0 : 0 ≤ wins) (h1 : wins ≤ total) (ht : 0 < total) :
    0 ≤ (calculate_confidence_interval wins total confidence).1 ∧
    (calculate_confidence_interval wins total confidence).1 ≤ 100 ∧
    0 ≤ (calculate_confidence_interval wins total confidence).2 ∧
    (calculate_confidence_interval wins total confidence).2 ≤ 100 := by
  have hp0 : 0 ≤ wins / total := div_nonneg h0 ht.le
  have hp1 : wins / total ≤ 1 := (div_le_one ht).mpr h1
  have hz : 0 < wilson_z confidence := wilson_z_pos confidence
  have hm : 0 ≤ wilsonMargin (wilson_z confidence) (wins / total) total :=
    wilsonMargin_nonneg _ _ _ hz.le ht
  have hc0 : 0 ≤ wilsonCenter (wilson_z confidence) (wins / total) total :=
    wilsonCenter_nonneg _ _ _ hp0 ht
  have hc1 : wilsonCenter (wilson_z confidence) (wins / total) total ≤ 1 :=
    wilsonCenter_le_one _ _ _ hp1 ht
  rw [calculate_confidence_interval_of_pos wins total confidence ht.ne']
  dsimp only
  refine ⟨?_, ?_, ?_, ?_⟩
  · have : (0 : ℝ) ≤ max 0 (wilsonCenter (wilson_z confidence) (wins / total) total
        - wilsonMargin (wilson_z confidence) (wins / total) total) := le_max_left 0 _
    linarith
  · have : max 0 (wilsonCenter (wilson_z confidence) (wins / total) total
        - wilsonMargin (wilson_z confidence) (wins / total) total) ≤ 1 :=
      max_le (by norm_num) (by linarith)
    linarith
  · have : (0 : ℝ) ≤ min 1 (wilsonCenter (wilson_z confidence) (wins / total) total
        + wilsonMargin (wilson_z confidence) (wins / total) total) :=
      le_min (by norm_num) (by linarith)
    linarith
  · have : min 1 (wilsonCenter (wilson_z confidence) (wins / total) total
        + wilsonMargin (wilson_z confidence) (wins / total) total) ≤ 1 :=
      min_le_left 1 _
    linarith

/-- Witness for C9 at `successes = 1`, `trials = 2`, confidence 0.95. -/
theorem wilson_bounds_witness :
    0 ≤ (calculate_confidence_interval 1 2 0.95).1 ∧
    (calculate_confidence_interval 1 2 0.95).1 ≤ 100 ∧
    0 ≤ (calculate_confidence_interval 1 2 0.95).2 ∧
    (calculate_confidence_interval 1 2 0.95).2 ≤ 100 :=
  wilson_bounds_in_range 1 2 0.95 (by norm_num) (by norm_num) (by norm_num)

/-- Claim C10: any confidence other than exactly 0.95 selects `z = 2.576`,
the 99% critical value — the interval returned is the 99% interval. -/
theorem wilson_confidence_two_way (wins total confidence : ℝ)
    (h : confidence ≠ 0.95) :
    calculate_confidence_interval wins total confidence
      = calculate_confidence_interval wins total 0.99 := by
  unfold calculate_confidence_interval wilson_z
  rw [if_neg h, if_neg (by norm_num : (0.99 : ℝ) ≠ 0.95)]

/-- Witness for C10 at confidence 0.5: the 50% request yields the 99%
interval. -/
theorem wilson_confidence_two_way_witness :
    calculate_confidence_interval 7 10 0.5 = calculate_confidence_interval 7 10 0.99 :=
  wilson_confidence_two_way 7 10 0.5 (by norm_num)

/-! ## Width monotonicity (claim C8) -/

theorem wilsonMargin_sq (z p total : ℝ) (hp0 : 0 ≤ p) (hp1 : p ≤ 1) (ht : 0 < total) :
    (wilsonMargin z p total) ^ 2
      = z ^ 2 * (p * (1 - p) * total + z ^ 2 / 4) / (total + z ^ 2) ^ 2 := by
  unfold wilsonMargin
  have h1p : 0 ≤ 1 - p := by linarith
  have hX : 0 ≤ p * (1 - p) / total + z ^ 2 / (4 * total ^ 2) := by positivity
  have ht' : total ≠ 0 := ht.ne'
  have hD : (1 : ℝ) + z ^ 2 / total ≠ 0 := (wilson_denom_pos z total ht).ne'
  have hTz : total + z ^ 2 ≠ 0 := by positivity
  rw [div_pow, mul_pow, Real.sq_sqrt hX]
  field_simp
  ring

theorem wilson_core_anti (z p n1 n2 : ℝ) (hz : 0 < z) (hp0 : 0 ≤ p) (hp1 : p ≤ 1)
    (h1 : 0 < n1) (h12 : n1 < n2) :
    z ^ 2 * (p * (1 - p) * n2 + z ^ 2 / 4) / (n2 + z ^ 2) ^ 2
      < z ^ 2 * (p * (1 - p) * n1 + z ^ 2 / 4) / (n1 + z ^ 2) ^ 2 := by
  have h2 : 0 < n2 := h1.trans h12
  have hd1 : 0 < (n1 + z ^ 2) ^ 2 := by positivity
  have hd2 : 0 < (n2 + z ^ 2) ^ 2 := by positivity
  rw [div_lt_div_iff hd2 hd1]
  have key : z ^ 2 * (p * (1 - p) * n1 + z ^ 2 / 4) * (n2 + z ^ 2) ^ 2
      - z ^ 2 * (p * (1 - p) * n2 + z ^ 2 / 4) * (n1 + z ^ 2) ^ 2
      = z ^ 2 * (n2 - n1) * (p * (1 - p) * n1 * n2 + z ^ 2 * (n1 + n2) / 4
          + z ^ 4 * (1 / 2 - p * (1 - p))) := by ring
  have ha0 : 0 ≤ p * (1 - p) := mul_nonneg hp0 (by linarith)
  have ha4 : p * (1 - p) ≤ 1 / 4 := by nlinarith [sq_nonneg (p - 1 / 2)]
  have hbr : 0 < p * (1 - p) * n1 * n2 + z ^ 2 * (n1 + n2) / 4
      + z ^ 4 * (1 / 2 - p * (1 - p)) := by
    have t1 : 0 ≤ p * (1 - p) * n1 * n2 := mul_nonneg (mul_nonneg ha0 h1.le) h2.le
    have t2 : 0 < z ^ 2 * (n1 + n2) / 4 :=
      div_pos (mul_pos (pow_pos hz 2) (by linarith)) (by norm_num)
    have t3 : 0 ≤ z ^ 4 * (1 / 2 - p * (1 - p)) :=
      mul_nonneg (by positivity) (by linarith)
    linarith
  have hpos : 0 < z ^ 2 * (n2 - n1) * (p * (1 - p) * n1 * n2 + z ^ 2 * (n1 + n2) / 4
      + z ^ 4 * (1 / 2 - p * (1 - p))) :=
    mul_pos (mul_pos (pow_pos hz 2) (by linarith)) hbr
  linarith

theorem wilsonMargin_anti (z p n1 n2 : ℝ) (hz : 0 < z) (hp0 : 0 ≤ p) (hp1 : p ≤ 1)
    (h1 : 0 < n1) (h12 : n1 < n2) :
    wilsonMargin z p n2 < wilsonMargin z p n1 := by
  have h2 : 0 < n2 := h1.trans h12
  have hm1 : 0 ≤ wilsonMargin z p n1 := wilsonMargin_nonneg z p n1 hz.le h1
  apply lt_of_pow_lt_pow_left 2 hm1
  rw [wilsonMargin_sq z p n1 hp0 hp1 h1, wilsonMargin_sq z p n2 hp0 hp1 h2]
  exact wilson_core_anti z p n1 n2 hz hp0 hp1 h1 h12

theorem wilson_width_eq (z p total : ℝ) (hz : 0 < z) (hp0 : 0 ≤ p) (hp1 : p ≤ 1)
    (ht : 0 < total) :
    min 1 (wilsonCenter z p total + wilsonMargin z p total) * 100
      - max 0 (wilsonCenter z p total - wilsonMargin z p total) * 100
      = 200 * wilsonMargin z p total := by
  rw [min_eq_right (wilson_upper_le_one z p total hz hp0 hp1 ht),
      max_eq_right (by linarith [wilsonMargin_le_center z p total hz hp0 ht])]
  ring

/-- Claim C8: holding the proportion `p = successes / trials` fixed (with
`0 ≤ p ≤ 1`), the width of the Wilson interval returned by
`calculate_confidence_interval` strictly decreases as the trial count
increases. -/
theorem wilson_width_strict_anti (p n1 n2 confidence : ℝ)
    (hp0 : 0 ≤ p) (hp1 : p ≤ 1) (h1 : 0 < n1) (h12 : n1 < n2) :
    (calculate_confidence_interval (p * n2) n2 confidence).2
        - (calculate_confidence_interval (p * n2) n2 confidence).1
      < (calculate_confidence_interval (p * n1) n1 confidence).2
        - (calculate_confidence_interval (p * n1) n1 confidence).1 := by
  have h2 : 0 < n2 := h1.trans h12
  have hz : 0 < wilson_z confidence := wilson_z_pos confidence
  have e1 : p * n1 / n1 = p := mul_div_cancel_right₀ p h1.ne'
  have e2 : p * n2 / n2 = p := mul_div_cancel_right₀ p h2.ne'
  rw [calculate_confidence_interval_of_pos _ _ _ h1.ne',
      calculate_confidence_interval_of_pos _ _ _ h2.ne']
  dsimp only
  rw [e1, e2, wilson_width_eq _ _ _ hz hp0 hp1 h1, wilson_width_eq _ _ _ hz hp0 hp1 h2]
  have hanti := wilsonMargin_anti (wilson_z confidence) p n1 n2 hz hp0 hp1 h1 h12
  linarith

/-- Witness for C8: at proportion 1/2 and confidence 0.95, the interval on
4 trials is strictly narrower than on 2 trials. -/
theorem wilson_width_witness :
    (calculate_confidence_interval (1 / 2 * 4) 4 0.95).2
        - (calculate_confidence_interval (1 / 2 * 4) 4 0.95).1
      < (calculate_confidence_interval (1 / 2 * 2) 2 0.95).2
        - (calculate_confidence_interval (1 / 2 * 2) 2 0.95).1 :=
  wilson_width_strict_anti (1 / 2) 2 4 0.95 (by norm_num) (by norm_num)
    (by norm_num) (by norm_num)

end AhoAi
